import Mathlib

/-!
Formal model of the realtime chat backend of this repository.

The persistent entities (src/src/models/Conversation.ts, Message.ts,
ConversationParticipant.ts) are modelled as Lean structures; the Conversation
Engine and Delivery/Read Tracker operations (src/src/services/chat.service.ts)
become pure functions on an explicit store state `DB`; the socket event
handlers (registerChatEvents in the socket service file) become functions
returning the new state, the list of room broadcasts and the acknowledgment.

Modelling conventions:
  - Mongo ObjectIds are atomic, totally ordered strings; `Nat` stands in for
    them (the source orders them with localeCompare, here the order on Nat).
  - `new Date()` timestamps are `Nat` parameters named `now`.
  - Mongo query/update primitives are translated literally: `findOne` /
    `findById` is `List.find?`, `updateMany` is `List.map` guarded by the
    filter, `findOneAndUpdate` / `findByIdAndUpdate` / `save` update the first
    matching document (`updateFirst`), `$addToSet` appends when the exact
    element is absent, `$pull` filters matching elements out.
  - Thrown service errors (the MESSAGES.CHAT constants in the constants file)
    become an error enumeration and `Except`.
-/

namespace Chat

/-- Conversation kinds (models/Conversation.ts, enum ConversationType). -/
inductive ConversationType
  | direct
  | group
deriving DecidableEq, Repr

/-- Participant roles (models/ConversationParticipant.ts, enum ParticipantRole). -/
inductive ParticipantRole
  | admin
  | member
deriving DecidableEq, Repr

/-- Message kinds (models/Message.ts, enum MessageType). -/
inductive MessageType
  | text
  | image
  | video
  | file
  | audio
  | location
  | system
deriving DecidableEq, Repr

/-- The MESSAGES.CHAT error constants raised by the chat service
(constants file, CHAT section). -/
inductive ChatError
  | cannotMessageSelf
  | groupNameRequired
  | minParticipants
  | conversationNotFound
  | notParticipant
  | emptyMessage
  | messageNotFound
  | cannotEditOthersMessage
  | cannotDeleteOthersMessage
  | notAdmin
deriving DecidableEq, Repr

/-- Attachment subdocument (models/Message.ts, IAttachment). The source field
`type` is called `atype` here. -/
structure Attachment where
  atype : String
  url : String := ""
  publicId : String := ""
  filename : Option String := none
  size : Option Nat := none
deriving DecidableEq, Repr

/-- Reaction subdocument (models/Message.ts, IReaction). -/
structure Reaction where
  emoji : String
  userId : Nat
  createdAt : Nat
deriving DecidableEq, Repr

/-- Read receipt subdocument (models/Message.ts, IReadStatus). -/
structure ReadStatus where
  userId : Nat
  readAt : Nat
deriving DecidableEq, Repr

/-- Delivery receipt subdocument (models/Message.ts, IDeliveryStatus). -/
structure DeliveryStatus where
  userId : Nat
  deliveredAt : Nat
deriving DecidableEq, Repr

/-- Message document (models/Message.ts, IMessage). The source field `type`
is called `mtype` here. -/
structure Message where
  id : Nat
  conversationId : Nat
  senderId : Nat
  content : String := ""
  mtype : MessageType := MessageType.text
  attachments : List Attachment := []
  replyTo : Option Nat := none
  mentions : List Nat := []
  reactions : List Reaction := []
  deliveredTo : List DeliveryStatus := []
  readBy : List ReadStatus := []
  isEdited : Bool := false
  editedAt : Option Nat := none
  isDeleted : Bool := false
  deletedAt : Option Nat := none
  deletedFor : List Nat := []
  isPinned : Bool := false
  createdAt : Nat := 0
deriving DecidableEq, Repr

/-- Conversation document (models/Conversation.ts, IConversation). The source
field `type` is called `ctype`; `metadata.totalMessages` and
`metadata.pinnedMessages` are flattened into `totalMessages` / `pinnedMessages`. -/
structure Conversation where
  id : Nat
  ctype : ConversationType
  name : Option String := none
  description : Option String := none
  avatar : Option String := none
  createdBy : Nat
  participants : List Nat := []
  admins : List Nat := []
  lastMessage : Option Nat := none
  lastMessageAt : Option Nat := none
  lastMessagePreview : Option String := none
  totalMessages : Nat := 0
  pinnedMessages : List Nat := []
  isActive : Bool := true
deriving DecidableEq, Repr

/-- ConversationParticipant document (models/ConversationParticipant.ts). -/
structure Participant where
  conversationId : Nat
  userId : Nat
  role : ParticipantRole := ParticipantRole.member
  isMuted : Bool := false
  unreadCount : Nat := 0
  lastReadAt : Option Nat := none
  lastReadMessageId : Option Nat := none
  isArchived : Bool := false
  isPinned : Bool := false
  joinedAt : Nat := 0
  joinedBy : Option Nat := none
  leftAt : Option Nat := none
  isActive : Bool := true
deriving DecidableEq, Repr

/-- The persistent document store: the three collections plus an id source for
newly created documents. -/
structure DB where
  conversations : List Conversation := []
  participants : List Participant := []
  messages : List Message := []
  nextId : Nat := 0
deriving DecidableEq, Repr

/-- Whitespace test of the JS `String.prototype.trim`. -/
def isWsChar (c : Char) : Bool :=
  c == ' ' || c == '\t' || c == '\n' || c == '\r'

/-- JS `String.prototype.trim`: drop whitespace from both ends. Defined on the
character list so that it evaluates inside the kernel. -/
def jsTrim (s : String) : String :=
  String.mk (((s.data.dropWhile isWsChar).reverse.dropWhile isWsChar).reverse)

/-- JS `String.prototype.substring(0, n)`: the first `n` characters. Defined on
the character list so that it evaluates inside the kernel. -/
def strTake (s : String) (n : Nat) : String :=
  String.mk (s.data.take n)

/-- Update the first element satisfying `p` (Mongo findOneAndUpdate /
findByIdAndUpdate / document save). -/
def updateFirst {α : Type} (p : α → Bool) (f : α → α) : List α → List α
  | [] => []
  | a :: l => if p a then f a :: l else a :: updateFirst p f l

/-- First message with the given id (Message.findById). -/
def msgOf (db : DB) (i : Nat) : Option Message :=
  db.messages.find? (fun m => m.id == i)

/-- First conversation with the given id (Conversation.findById). -/
def convOf (db : DB) (i : Nat) : Option Conversation :=
  db.conversations.find? (fun c => c.id == i)

/-- First participant record for the (conversation, user) pair
(ConversationParticipant.findOne). -/
def participantOf (db : DB) (cid uid : Nat) : Option Participant :=
  db.participants.find? (fun p => p.conversationId == cid && p.userId == uid)

/-- chat.service.ts getConversation: the conversation is returned only when the
user appears in its participants array and the conversation is active; this is
the authorization test used by sendMessage, getMessages and pin/unpin. -/
def getConversation? (db : DB) (cid uid : Nat) : Option Conversation :=
  db.conversations.find? (fun c => c.id == cid && c.participants.contains uid && c.isActive)

/-- Replace the first stored message with the given id by `m`
(mongoose document save persists the loaded document by its _id). -/
def replaceMsg (db : DB) (i : Nat) (m : Message) : DB :=
  { db with messages := updateFirst (fun x => x.id == i) (fun _ => m) db.messages }

/-- The lookup filter of createDirectConversation:
`{ type: DIRECT, participants: { $all: [u1, u2], $size: 2 } }`. -/
def directPairMatch (u1 u2 : Nat) (c : Conversation) : Bool :=
  c.ctype == ConversationType.direct && c.participants.length == 2 &&
    c.participants.contains u1 && c.participants.contains u2

/-- `[objectId1, objectId2].sort(localeCompare)`: the canonically ordered pair.
ObjectId strings are totally ordered; the order on Nat stands in. -/
def sortPair (a b : Nat) : List Nat :=
  if a ≤ b then [a, b] else [b, a]

/-- chat.service.ts createDirectConversation (lines 125-178). Returns the new
store and the conversation id. -/
def createDirectConversation (db : DB) (now : Nat) (userId1 userId2 : Nat) :
    Except ChatError (DB × Nat) :=
  if userId1 = userId2 then
    Except.error ChatError.cannotMessageSelf
  else
    match db.conversations.find? (directPairMatch userId1 userId2) with
    | some c =>
      -- Reactivate participant records if they left (updateMany on the pair)
      Except.ok
        ({ db with
            participants := db.participants.map (fun p =>
              if p.conversationId == c.id && (p.userId == userId1 || p.userId == userId2)
              then { p with isActive := true, leftAt := none }
              else p) }, c.id)
    | none =>
      let cid := db.nextId
      let conv : Conversation :=
        { id := cid, ctype := ConversationType.direct, createdBy := userId1,
          participants := sortPair userId1 userId2, admins := sortPair userId1 userId2 }
      let p1 : Participant :=
        { conversationId := cid, userId := userId1, role := ParticipantRole.admin,
          joinedAt := now, joinedBy := some userId1 }
      let p2 : Participant :=
        { conversationId := cid, userId := userId2, role := ParticipantRole.admin,
          joinedAt := now, joinedBy := some userId1 }
      Except.ok
        ({ db with
            conversations := db.conversations ++ [conv],
            participants := db.participants ++ [p1, p2],
            nextId := db.nextId + 1 }, cid)

/-- chat.service.ts generateMessagePreview (lines 680-701). `substring(0,100)`
is `strTake _ 100`; the JS `attachments[0]?.filename || 'File'` treats an
empty filename as absent. -/
def generateMessagePreview (content : String) (t : MessageType)
    (attachments : List Attachment) : String :=
  match t with
  | MessageType.image => "📷 Image"
  | MessageType.video => "🎬 Video"
  | MessageType.audio => "🎵 Audio"
  | MessageType.file =>
    match attachments.head? with
    | some a =>
      match a.filename with
      | some f => if f == "" then "📎 File" else "📎 " ++ f
      | none => "📎 File"
    | none => "📎 File"
  | MessageType.location => "📍 Location"
  | MessageType.system => strTake content 100
  | MessageType.text => strTake content 100

/-- chat.service.ts sendSystemMessage (lines 653-675). -/
def sendSystemMessage (db : DB) (now : Nat) (cid triggeredBy : Nat)
    (content : String) : DB × Nat :=
  let mid := db.nextId
  let msg : Message :=
    { id := mid, conversationId := cid, senderId := triggeredBy,
      content := content, mtype := MessageType.system, createdAt := now }
  ({ db with
      messages := db.messages ++ [msg],
      nextId := db.nextId + 1,
      conversations := updateFirst (fun c => c.id == cid)
        (fun c => { c with
                    lastMessage := some mid,
                    lastMessageAt := some now,
                    lastMessagePreview := some (strTake content 100) })
        db.conversations }, mid)

/-- Options of sendMessage (chat.service.ts, SendMessageOptions); the defaults
mirror the destructuring defaults in sendMessage. -/
structure SendMessageOptions where
  mtype : MessageType := MessageType.text
  attachments : List Attachment := []
  replyTo : Option Nat := none
  mentions : List Nat := []
deriving DecidableEq, Repr

/-- chat.service.ts sendMessage (lines 580-648). Returns the new store and the
created message id. The typing-indicator clear touches only the ephemeral
redis store and does not affect the persistent state modelled here. -/
def sendMessage (db : DB) (now : Nat) (conversationId senderId : Nat)
    (content : String) (opts : SendMessageOptions) : Except ChatError (DB × Nat) :=
  match getConversation? db conversationId senderId with
  | none => Except.error ChatError.notParticipant
  | some _ =>
    if jsTrim content == "" && opts.attachments.length == 0 &&
        !(opts.mtype == MessageType.system) then
      Except.error ChatError.emptyMessage
    else
      let mid := db.nextId
      let msg : Message :=
        { id := mid, conversationId := conversationId, senderId := senderId,
          content := jsTrim content, mtype := opts.mtype,
          attachments := opts.attachments, replyTo := opts.replyTo,
          mentions := opts.mentions, createdAt := now }
      let preview := generateMessagePreview content opts.mtype opts.attachments
      Except.ok
        ({ db with
            messages := db.messages ++ [msg],
            nextId := db.nextId + 1,
            conversations := updateFirst (fun c => c.id == conversationId)
              (fun c => { c with
                          lastMessage := some mid,
                          lastMessageAt := some now,
                          lastMessagePreview := some preview,
                          totalMessages := c.totalMessages + 1 })
              db.conversations,
            participants := db.participants.map (fun p =>
              if p.conversationId == conversationId && !(p.userId == senderId) && p.isActive
              then { p with unreadCount := p.unreadCount + 1 }
              else p) }, mid)

/-- Options of createGroupConversation (chat.service.ts, CreateGroupOptions);
`name` is optional here because the source guards `!name?.trim()`. -/
structure CreateGroupOptions where
  name : Option String
  description : Option String := none
  avatar : Option String := none
  participantIds : List Nat
deriving DecidableEq, Repr

/-- chat.service.ts createGroupConversation (lines 183-233). Note that the
minimum-participants check runs on `participantIds` before the creator is
filtered out of it. -/
def createGroupConversation (db : DB) (now : Nat) (creatorId : Nat)
    (opts : CreateGroupOptions) : Except ChatError (DB × Nat) :=
  let nameTrim := jsTrim (opts.name.getD "")
  if nameTrim == "" then
    Except.error ChatError.groupNameRequired
  else if opts.participantIds.length < 2 then
    Except.error ChatError.minParticipants
  else
    let others := opts.participantIds.filter (fun i => !(i == creatorId))
    let allParticipants := creatorId :: others
    let cid := db.nextId
    let conv : Conversation :=
      { id := cid, ctype := ConversationType.group, name := some nameTrim,
        description := opts.description.map jsTrim, avatar := opts.avatar,
        createdBy := creatorId, participants := allParticipants,
        admins := [creatorId] }
    let precs := allParticipants.map (fun u =>
      ({ conversationId := cid, userId := u,
         role := if u == creatorId then ParticipantRole.admin else ParticipantRole.member,
         joinedAt := now, joinedBy := some creatorId } : Participant))
    let db1 : DB :=
      { db with
        conversations := db.conversations ++ [conv],
        participants := db.participants ++ precs,
        nextId := db.nextId + 1 }
    let sys := sendSystemMessage db1 now cid creatorId
      (toString creatorId ++ " created the group \"" ++ (opts.name.getD "") ++ "\"")
    Except.ok (sys.1, cid)

/-- Models the messageSchema pre-save hook (models/Message.ts lines 310-315)
combined with the mongoose rule that assigning a value equal to the persisted
one does not mark the path as modified: `isModified("content")` holds exactly
when the content being saved differs from the persisted content `orig.content`.
All saves modelled here act on already persisted documents, so `isNew` is
false. -/
def presaveHook (orig updated : Message) (now : Nat) : Message :=
  if updated.content == orig.content then updated
  else { updated with isEdited := true, editedAt := some now }

/-- chat.service.ts editMessage (lines 706-742). -/
def editMessage (db : DB) (now : Nat) (messageId userId : Nat)
    (newContent : String) : Except ChatError DB :=
  match msgOf db messageId with
  | none => Except.error ChatError.messageNotFound
  | some m =>
    if !(m.senderId == userId) then
      Except.error ChatError.cannotEditOthersMessage
    else if m.isDeleted then
      Except.error ChatError.messageNotFound
    else
      let m1 := { m with content := jsTrim newContent, isEdited := true, editedAt := some now }
      let db1 := replaceMsg db messageId (presaveHook m m1 now)
      let db2 :=
        match convOf db1 m.conversationId with
        | some c =>
          if c.lastMessage == some messageId then
            { db1 with
              conversations := updateFirst (fun x => x.id == m.conversationId)
                (fun c2 => { c2 with
                             lastMessagePreview :=
                               some (generateMessagePreview newContent m.mtype m.attachments) })
                db1.conversations }
          else db1
        | none => db1
      Except.ok db2

/-- chat.service.ts deleteMessage (lines 747-778): delete for everyone
tombstones the message (only the sender may do it) and its save runs through
the pre-save hook; delete for self adds the caller to `deletedFor`
($addToSet). -/
def deleteMessage (db : DB) (now : Nat) (messageId userId : Nat)
    (forEveryone : Bool) : Except ChatError DB :=
  match msgOf db messageId with
  | none => Except.error ChatError.messageNotFound
  | some m =>
    if forEveryone then
      if !(m.senderId == userId) then
        Except.error ChatError.cannotDeleteOthersMessage
      else
        let m1 := { m with
                    isDeleted := true,
                    deletedAt := some now,
                    content := "This message was deleted",
                    attachments := [] }
        Except.ok (replaceMsg db messageId (presaveHook m m1 now))
    else
      if m.deletedFor.contains userId then Except.ok db
      else Except.ok (replaceMsg db messageId { m with deletedFor := m.deletedFor ++ [userId] })

/-- The (emoji, userId) key on which reaction entries are unique. -/
def reactionKey (r : Reaction) : String × Nat :=
  (r.emoji, r.userId)

/-- Index of the first reaction of this user with this emoji
(`reactions.findIndex` in toggleReaction). -/
def findReactionIdx (uid : Nat) (emoji : String) : List Reaction → Option Nat
  | [] => none
  | r :: rest =>
    if r.emoji == emoji && r.userId == uid then some 0
    else (findReactionIdx uid emoji rest).map (· + 1)

/-- The list-level toggle of chat.service.ts toggleReaction (lines 886-919):
`splice(existingIndex, 1)` when found, `push({emoji, userId, createdAt: now})`
when not. Returns the new list and the `added` flag. -/
def toggleReactionList (uid : Nat) (emoji : String) (now : Nat)
    (l : List Reaction) : List Reaction × Bool :=
  match findReactionIdx uid emoji l with
  | some i => (l.eraseIdx i, false)
  | none => (l ++ [⟨emoji, uid, now⟩], true)

/-- chat.service.ts toggleReaction (lines 886-919). No participation check is
performed: the message is loaded by id and saved back. -/
def toggleReaction (db : DB) (now : Nat) (messageId userId : Nat)
    (emoji : String) : Except ChatError (DB × Bool) :=
  match msgOf db messageId with
  | none => Except.error ChatError.messageNotFound
  | some m =>
    let t := toggleReactionList userId emoji now m.reactions
    Except.ok (replaceMsg db messageId { m with reactions := t.1 }, t.2)

/-- chat.service.ts addReaction (lines 829-857): returns unchanged when the
(emoji, user) pair is already present, otherwise appends. No participation
check is performed. -/
def addReaction (db : DB) (now : Nat) (messageId userId : Nat)
    (emoji : String) : Except ChatError DB :=
  match msgOf db messageId with
  | none => Except.error ChatError.messageNotFound
  | some m =>
    if m.reactions.any (fun r => r.emoji == emoji && r.userId == userId) then
      Except.ok db
    else
      Except.ok (replaceMsg db messageId
        { m with reactions := m.reactions ++ [⟨emoji, userId, now⟩] })

/-- The per-message timestamp cutoff of markAsRead: when a reference message id
is given and that message exists, only messages created at or before it
qualify; otherwise no cutoff applies. -/
def readCutoff (db : DB) (mid? : Option Nat) (m : Message) : Bool :=
  match mid? with
  | none => true
  | some r =>
    match msgOf db r with
    | none => true
    | some t => m.createdAt ≤ t.createdAt

/-- The message filter of markAsRead (chat.service.ts lines 948-967): in this
conversation, not sent by the caller, within the cutoff, and the caller is not
yet in `readBy`. -/
def unreadFilter (db : DB) (cid uid : Nat) (mid? : Option Nat) (m : Message) : Bool :=
  m.conversationId == cid && !(m.senderId == uid) && readCutoff db mid? m &&
    !(m.readBy.any (fun s => s.userId == uid))

/-- `$addToSet: { readBy: { userId, readAt: now } }`: append the exact receipt
when it is absent. -/
def addReadEntry (uid now : Nat) (m : Message) : Message :=
  if m.readBy.any (fun s => s.userId == uid && s.readAt == now) then m
  else { m with readBy := m.readBy ++ [⟨uid, now⟩] }

/-- chat.service.ts markAsRead (lines 929-986): resets the participant record,
then appends a read receipt to every message passing `unreadFilter`, returning
the ids of the affected messages. No participation check is performed. -/
def markAsRead (db : DB) (now : Nat) (conversationId userId : Nat)
    (mid? : Option Nat) : DB × List Nat :=
  let db1 : DB :=
    { db with
      participants := updateFirst
        (fun p => p.conversationId == conversationId && p.userId == userId)
        (fun p => { p with
                    unreadCount := 0,
                    lastReadAt := some now,
                    lastReadMessageId :=
                      match mid? with
                      | some r => some r
                      | none => p.lastReadMessageId })
        db.participants }
  let unread := db.messages.filter (unreadFilter db conversationId userId mid?)
  if unread.isEmpty then (db1, [])
  else
    let ids := unread.map Message.id
    ({ db1 with messages := db1.messages.map (fun m =>
        if ids.contains m.id then addReadEntry userId now m else m) }, ids)

/-- The ids of the messages markAsRead collects and updates. -/
def readIds (db : DB) (cid uid : Nat) (mid? : Option Nat) : List Nat :=
  (db.messages.filter (unreadFilter db cid uid mid?)).map Message.id

/-- The per-message update markAsRead applies (receipt added to the collected
messages, all others untouched). -/
def readUpd (uid now : Nat) (ids : List Nat) (m : Message) : Message :=
  if ids.contains m.id then addReadEntry uid now m else m

/-- The participant-record update of markAsRead. -/
def readPartUpd (now : Nat) (mid? : Option Nat) (p : Participant) : Participant :=
  { p with
    unreadCount := 0,
    lastReadAt := some now,
    lastReadMessageId :=
      match mid? with
      | some r => some r
      | none => p.lastReadMessageId }

/-- chat.service.ts markAsDelivered (lines 991-1006): `$addToSet` the delivery
receipt on every listed message the user has not received yet. No
participation check is performed. -/
def markAsDelivered (db : DB) (now : Nat) (messageIds : List Nat) (userId : Nat) : DB :=
  { db with messages := db.messages.map (fun m =>
      if messageIds.contains m.id && !(m.deliveredTo.any (fun d => d.userId == userId))
      then { m with deliveredTo := m.deliveredTo ++ [⟨userId, now⟩] }
      else m) }

/-! Realtime fanout layer: the socket event handlers of registerChatEvents.
A handler receives the authenticated userId and event payload and yields the
new store, the broadcasts it emits to rooms, and the acknowledgment it would
hand to the optional callback. -/

/-- Server-to-client event names used by the modelled handlers
(CHAT_EVENTS_S2C). -/
inductive S2CEvent
  | messageNew
  | messageDeleted
  | readReceipt
deriving DecidableEq, Repr

/-- A broadcast to a room. -/
structure Emit where
  room : String
  event : S2CEvent
deriving DecidableEq, Repr

/-- The `{ success, error? }` acknowledgment shape (CallbackResponse). -/
structure CallbackResponse where
  success : Bool
  error : Option ChatError := none
deriving DecidableEq, Repr

/-- The conversation-scoped room name convention. -/
def roomName (cid : Nat) : String :=
  "conversation:" ++ toString cid

/-- Payload of the SEND_MESSAGE client event. -/
structure SendMessagePayload where
  conversationId : Nat
  content : String
  mtype : MessageType := MessageType.text
  attachments : List Attachment := []
  replyTo : Option Nat := none
  mentions : List Nat := []
deriving DecidableEq, Repr

/-- The options the SEND_MESSAGE handler forwards to sendMessage. -/
def payloadOptions (p : SendMessagePayload) : SendMessageOptions :=
  { mtype := p.mtype, attachments := p.attachments,
    replyTo := p.replyTo, mentions := p.mentions }

/-- The SEND_MESSAGE handler: delegates to sendMessage; on success broadcasts
MESSAGE_NEW to the conversation room and acknowledges success; on failure
broadcasts nothing and acknowledges failure. -/
def handleSendMessage (db : DB) (now : Nat) (userId : Nat)
    (p : SendMessagePayload) : DB × List Emit × CallbackResponse :=
  match sendMessage db now p.conversationId userId p.content (payloadOptions p) with
  | Except.ok r =>
    (r.1, [⟨roomName p.conversationId, S2CEvent.messageNew⟩], ⟨true, none⟩)
  | Except.error e => (db, [], ⟨false, some e⟩)

/-- The DELETE_MESSAGE handler: loads the message to find its conversation
(acknowledging failure when absent), delegates to deleteMessage, and
broadcasts MESSAGE_DELETED only on success and only for delete-for-everyone. -/
def handleDeleteMessage (db : DB) (now : Nat) (userId : Nat)
    (messageId : Nat) (forEveryone : Bool) : DB × List Emit × CallbackResponse :=
  match msgOf db messageId with
  | none => (db, [], ⟨false, some ChatError.messageNotFound⟩)
  | some m =>
    match deleteMessage db now messageId userId forEveryone with
    | Except.ok db1 =>
      (db1,
       if forEveryone then [⟨roomName m.conversationId, S2CEvent.messageDeleted⟩] else [],
       ⟨true, none⟩)
    | Except.error e => (db, [], ⟨false, some e⟩)

/-- The MARK_READ handler: delegates to markAsRead and broadcasts READ_RECEIPT
only when some message was affected. markAsRead never raises, so the failure
acknowledgment branch of the source handler is unreachable in this model. -/
def handleMarkRead (db : DB) (now : Nat) (userId : Nat)
    (conversationId : Nat) (mid? : Option Nat) : DB × List Emit × CallbackResponse :=
  let r := markAsRead db now conversationId userId mid?
  (r.1,
   if r.2.isEmpty then [] else [⟨roomName conversationId, S2CEvent.readReceipt⟩],
   ⟨true, none⟩)

/-- The readBy projection of markAsRead, phrased the way the specification
words it, to be compared with the filter computed by the source: in this
conversation, not sent by the caller, created at or before the reference
message when one is given and stored, and not already carrying a receipt of
the caller. -/
def specReadQualifies (db : DB) (cid uid : Nat) (mid? : Option Nat) (m : Message) : Prop :=
  m.conversationId = cid ∧ m.senderId ≠ uid ∧
    (∀ r t, mid? = some r → msgOf db r = some t → m.createdAt ≤ t.createdAt) ∧
    (∀ s ∈ m.readBy, s.userId ≠ uid)

/-- A two-user direct conversation store used to instantiate the sendMessage
property. -/
def convC2 : Conversation :=
  { id := 0, ctype := ConversationType.direct, createdBy := 1,
    participants := [1, 2], admins := [1, 2] }

def dbC2 : DB :=
  { conversations := [convC2],
    participants := [{ conversationId := 0, userId := 1 },
                     { conversationId := 0, userId := 2 }],
    messages := [], nextId := 3 }

/-- A store holding one ordinary message (id 1, sender 1, content "hi"). -/
def dbC5 : DB :=
  { messages := [{ id := 1, conversationId := 10, senderId := 1,
                   content := "hi", createdAt := 0 }],
    nextId := 2 }

/-- A store whose single message (sender 7) already carries the placeholder
text as its content. -/
def dbC10 : DB :=
  { messages := [{ id := 1, conversationId := 10, senderId := 7,
                   content := "This message was deleted", createdAt := 0 }],
    nextId := 2 }

/-- A store holding one message that carries an ("a", user 1) and a
("b", user 2) reaction. -/
def msgC4 : Message :=
  { id := 1, conversationId := 10, senderId := 1,
    reactions := [⟨"a", 1, 0⟩, ⟨"b", 2, 0⟩], createdAt := 0 }

def dbC4 : DB := { messages := [msgC4], nextId := 2 }

/-- A direct conversation store with three messages used to instantiate the
markAsRead properties: messages 1 and 3 were sent by user 1, message 2 by
user 2, none read yet. -/
def dbC3 : DB :=
  { conversations := [{ id := 10, ctype := ConversationType.direct, createdBy := 1,
                        participants := [1, 2] }],
    participants := [{ conversationId := 10, userId := 2, unreadCount := 3 }],
    messages := [{ id := 1, conversationId := 10, senderId := 1, content := "hi", createdAt := 4 },
                 { id := 2, conversationId := 10, senderId := 2, content := "yo", createdAt := 5 },
                 { id := 3, conversationId := 10, senderId := 1, content := "x", createdAt := 6 }],
    nextId := 11 }

/-- A store with a two-party conversation 10 and a message 5 sent by user 1;
user 99 is not a participant. -/
def msgC8 : Message :=
  { id := 5, conversationId := 10, senderId := 1, content := "hi", createdAt := 0 }

def dbC8 : DB :=
  { conversations := [{ id := 10, ctype := ConversationType.direct, createdBy := 1,
                        participants := [1, 2] }],
    messages := [msgC8],
    nextId := 11 }

/-! ### Generic lemmas about the store primitives -/

theorem find?_updateFirst {α : Type} (p : α → Bool) (f : α → α) (l : List α)
    (hpf : ∀ a, p a = true → p (f a) = true) :
    (updateFirst p f l).find? p = (l.find? p).map f := by
  induction l with
  | nil => simp [updateFirst]
  | cons a l ih =>
    by_cases h : p a = true
    · simp [updateFirst, h, List.find?_cons, hpf a h]
    · have h' : p a = false := by simpa using h
      simp [updateFirst, h', List.find?_cons, ih]

theorem find?_map_pres {α : Type} (g : α → α) (p : α → Bool) (l : List α)
    (hg : ∀ a, p (g a) = p a) :
    (l.map g).find? p = (l.find? p).map g := by
  induction l with
  | nil => simp
  | cons a l ih =>
    by_cases h : p a = true
    · simp [List.find?_cons, hg a, h]
    · have h' : p a = false := by simpa using h
      simp [List.find?_cons, hg a, h', ih]

/-! ### C1: canonical direct conversations -/

theorem mem_sortPair_left (a b : Nat) : a ∈ sortPair a b := by
  unfold sortPair; split <;> simp

theorem mem_sortPair_right (a b : Nat) : b ∈ sortPair a b := by
  unfold sortPair; split <;> simp

theorem length_sortPair (a b : Nat) : (sortPair a b).length = 2 := by
  unfold sortPair; split <;> simp

theorem directPairMatch_symm (u1 u2 : Nat) :
    directPairMatch u2 u1 = directPairMatch u1 u2 := by
  funext c
  simp only [directPairMatch, Bool.and_assoc]
  cases c.participants.contains u1 <;> cases c.participants.contains u2 <;> simp

theorem contains_sortPair_left (a b : Nat) : (sortPair a b).contains a = true := by
  unfold sortPair; split <;> simp

theorem contains_sortPair_right (a b : Nat) : (sortPair a b).contains b = true := by
  unfold sortPair; split <;> simp

/-- Evaluation of createDirectConversation when the canonical pair is found. -/
theorem createDirect_found (db : DB) (t : Nat) (u1 u2 : Nat) (hne : u1 ≠ u2)
    (c : Conversation)
    (hfind : db.conversations.find? (directPairMatch u1 u2) = some c) :
    createDirectConversation db t u1 u2 = Except.ok
      ({ db with
          participants := db.participants.map (fun p =>
            if p.conversationId == c.id && (p.userId == u1 || p.userId == u2)
            then { p with isActive := true, leftAt := none }
            else p) }, c.id) := by
  simp only [createDirectConversation, if_neg hne, hfind]

/-- Evaluation of createDirectConversation when the canonical pair is absent. -/
theorem createDirect_missing (db : DB) (t : Nat) (u1 u2 : Nat) (hne : u1 ≠ u2)
    (hfind : db.conversations.find? (directPairMatch u1 u2) = none) :
    createDirectConversation db t u1 u2 = Except.ok
      ({ db with
          conversations := db.conversations ++
            [{ id := db.nextId, ctype := ConversationType.direct, createdBy := u1,
               participants := sortPair u1 u2, admins := sortPair u1 u2 }],
          participants := db.participants ++
            [{ conversationId := db.nextId, userId := u1, role := ParticipantRole.admin,
               joinedAt := t, joinedBy := some u1 },
             { conversationId := db.nextId, userId := u2, role := ParticipantRole.admin,
               joinedAt := t, joinedBy := some u1 }],
          nextId := db.nextId + 1 }, db.nextId) := by
  simp only [createDirectConversation, if_neg hne, hfind]

theorem directPairMatch_newConv (u1 u2 cid cb : Nat) :
    directPairMatch u1 u2
      { id := cid, ctype := ConversationType.direct, createdBy := cb,
        participants := sortPair u1 u2, admins := sortPair u1 u2 } = true := by
  simp [directPairMatch, length_sortPair, contains_sortPair_left, contains_sortPair_right]
  exact ⟨mem_sortPair_left u1 u2, mem_sortPair_right u1 u2⟩

theorem reactivate_map_isActive (l : List Participant) (cid a b : Nat) :
    ∀ p ∈ l.map (fun p =>
        if p.conversationId == cid && (p.userId == a || p.userId == b)
        then { p with isActive := true, leftAt := none }
        else p),
      p.conversationId = cid → (p.userId = a ∨ p.userId = b) → p.isActive = true := by
  intro p hp h1 h2
  rcases List.mem_map.mp hp with ⟨q, _, rfl⟩
  by_cases h : (q.conversationId == cid && (q.userId == a || q.userId == b)) = true
  · rw [if_pos h] at h1 h2 ⊢
  · rw [if_neg h] at h1 h2 ⊢
    exact absurd (by rcases h2 with h2 | h2 <;> simp [h1, h2]) h


/-- C1: for every pair of distinct user ids, createDirectConversation resolves
both argument orders to the same direct conversation found through the
canonical participant pair: the first call succeeds, the swapped second call
returns the same conversation id, creates no further conversation, and leaves
both participant records of the pair active; calling it with equal ids fails
with the self-pairing error. -/
theorem createDirect_canonical (db : DB) (t1 t2 : Nat) (u1 u2 : Nat)
    (hne : u1 ≠ u2) :
    (∃ db1 db2 cid,
      createDirectConversation db t1 u1 u2 = Except.ok (db1, cid) ∧
      createDirectConversation db1 t2 u2 u1 = Except.ok (db2, cid) ∧
      db2.conversations = db1.conversations ∧
      (∀ p ∈ db2.participants, p.conversationId = cid →
        (p.userId = u1 ∨ p.userId = u2) → p.isActive = true)) ∧
    (∀ t u, createDirectConversation db t u u =
      Except.error ChatError.cannotMessageSelf) := by
  constructor
  · cases hfind : db.conversations.find? (directPairMatch u1 u2) with
    | some c =>
      have h1 := createDirect_found db t1 u1 u2 hne c hfind
      have hfind2 : ({ db with
          participants := db.participants.map (fun p =>
            if p.conversationId == c.id && (p.userId == u1 || p.userId == u2)
            then { p with isActive := true, leftAt := none }
            else p) } : DB).conversations.find? (directPairMatch u2 u1) = some c := by
        show db.conversations.find? (directPairMatch u2 u1) = some c
        rw [directPairMatch_symm]
        exact hfind
      have h2 := createDirect_found _ t2 u2 u1 (Ne.symm hne) c hfind2
      refine ⟨_, _, c.id, h1, h2, rfl, ?_⟩
      intro p hp hcid huser
      exact reactivate_map_isActive _ c.id u2 u1 p hp hcid huser.symm
    | none =>
      have h1 := createDirect_missing db t1 u1 u2 hne hfind
      have hfind2 : ({ db with
          conversations := db.conversations ++
            [{ id := db.nextId, ctype := ConversationType.direct, createdBy := u1,
               participants := sortPair u1 u2, admins := sortPair u1 u2 }],
          participants := db.participants ++
            [{ conversationId := db.nextId, userId := u1, role := ParticipantRole.admin,
               joinedAt := t1, joinedBy := some u1 },
             { conversationId := db.nextId, userId := u2, role := ParticipantRole.admin,
               joinedAt := t1, joinedBy := some u1 }],
          nextId := db.nextId + 1 } : DB).conversations.find? (directPairMatch u2 u1)
          = some { id := db.nextId, ctype := ConversationType.direct, createdBy := u1,
                   participants := sortPair u1 u2, admins := sortPair u1 u2 } := by
        show (db.conversations ++ [_]).find? (directPairMatch u2 u1) = _
        rw [directPairMatch_symm, List.find?_append, hfind]
        simp [List.find?_cons, directPairMatch_newConv u1 u2 db.nextId u1]
      have h2 := createDirect_found _ t2 u2 u1 (Ne.symm hne) _ hfind2
      refine ⟨_, _, db.nextId, h1, h2, rfl, ?_⟩
      intro p hp hcid huser
      exact reactivate_map_isActive _ db.nextId u2 u1 p hp hcid huser.symm
  · intro t u
    simp [createDirectConversation]

/-- C1 witness: the property instantiated on the empty store for users 1, 2. -/
theorem createDirect_canonical_witness :
    ∃ db1 db2 cid,
      createDirectConversation ({} : DB) 7 1 2 = Except.ok (db1, cid) ∧
      createDirectConversation db1 9 2 1 = Except.ok (db2, cid) ∧
      db2.conversations = db1.conversations ∧
      (∀ p ∈ db2.participants, p.conversationId = cid →
        (p.userId = 1 ∨ p.userId = 2) → p.isActive = true) :=
  (createDirect_canonical ({} : DB) 7 9 1 2 (by decide)).1

/-- C7: the input on which createGroupConversation contradicts the claim and
its own MIN_PARTICIPANTS error text. With creator 1 and
participantIds = [1, 2] (the creator plus a single other user) only one
participant other than the creator is named, yet the call succeeds because
the length check runs before the creator is filtered out: the group is
created with participants [1, 2] and the creator as sole admin. -/
theorem createGroup_countsCreatorInMinimum :
    (createGroupConversation ({} : DB) 0 1
        { name := some "Trip", participantIds := [1, 2] }).toOption.map
      (fun r => (r.1.conversations.map (fun c => (c.participants, c.admins)), r.2))
      = some ([([1, 2], [1])], 0) ∧
    (([1, 2] : List Nat).filter (fun i => !(i == 1))).length = 1 := by
  constructor
  · decide
  · decide


/-! ### C2: sendMessage effects -/

theorem participantOf_mk (cs : List Conversation) (ps : List Participant)
    (ms : List Message) (n cid uid : Nat) :
    participantOf { conversations := cs, participants := ps, messages := ms, nextId := n } cid uid
      = ps.find? (fun p => p.conversationId == cid && p.userId == uid) := rfl

theorem convOf_mk (cs : List Conversation) (ps : List Participant)
    (ms : List Message) (n i : Nat) :
    convOf { conversations := cs, participants := ps, messages := ms, nextId := n } i
      = cs.find? (fun c => c.id == i) := rfl

theorem msgOf_mk (cs : List Conversation) (ps : List Participant)
    (ms : List Message) (n i : Nat) :
    msgOf { conversations := cs, participants := ps, messages := ms, nextId := n } i
      = ms.find? (fun m => m.id == i) := rfl

/-- Evaluation of sendMessage when the sender is authorized and the content
validation passes. -/
theorem sendMessage_ok (db : DB) (now cid s : Nat) (content : String)
    (opts : SendMessageOptions) (conv : Conversation)
    (hconv : getConversation? db cid s = some conv)
    (hval : (jsTrim content == "" && opts.attachments.length == 0 &&
      !(opts.mtype == MessageType.system)) = false) :
    sendMessage db now cid s content opts = Except.ok
      ({ db with
          messages := db.messages ++
            [{ id := db.nextId, conversationId := cid, senderId := s,
               content := jsTrim content, mtype := opts.mtype,
               attachments := opts.attachments, replyTo := opts.replyTo,
               mentions := opts.mentions, createdAt := now }],
          nextId := db.nextId + 1,
          conversations := updateFirst (fun c => c.id == cid)
            (fun c => { c with
                        lastMessage := some db.nextId,
                        lastMessageAt := some now,
                        lastMessagePreview :=
                          some (generateMessagePreview content opts.mtype opts.attachments),
                        totalMessages := c.totalMessages + 1 })
            db.conversations,
          participants := db.participants.map (fun p =>
            if p.conversationId == cid && !(p.userId == s) && p.isActive
            then { p with unreadCount := p.unreadCount + 1 }
            else p) }, db.nextId) := by
  simp only [sendMessage, hconv, hval, Bool.false_eq_true, if_false]

/-- C2: when the sender is an active participant of the conversation and the
payload is valid (non-blank content, or at least one attachment, or a system
message), sendMessage succeeds, increments the unread count of every other
active participant record by exactly one, leaves the sender record unchanged,
rewrites the denormalized last-message fields of the conversation to the new
message with the total count incremented, and stores the new message; when
the content is blank, there is no attachment and the type is not system, the
call fails with the empty-message error. -/
theorem sendMessage_spec (db : DB) (now cid s : Nat) (content : String)
    (opts : SendMessageOptions) (conv : Conversation)
    (hconv : getConversation? db cid s = some conv) :
    ((jsTrim content ≠ "" ∨ opts.attachments ≠ [] ∨ opts.mtype = MessageType.system) →
      ∃ db1, sendMessage db now cid s content opts = Except.ok (db1, db.nextId) ∧
        (∀ u q, participantOf db cid u = some q → u ≠ s → q.isActive = true →
          participantOf db1 cid u = some { q with unreadCount := q.unreadCount + 1 }) ∧
        (∀ q, participantOf db cid s = some q → participantOf db1 cid s = some q) ∧
        (∀ c0, convOf db cid = some c0 →
          convOf db1 cid = some { c0 with
                                  lastMessage := some db.nextId,
                                  lastMessageAt := some now,
                                  lastMessagePreview :=
                                    some (generateMessagePreview content opts.mtype opts.attachments),
                                  totalMessages := c0.totalMessages + 1 }) ∧
        (∃ m ∈ db1.messages, m.id = db.nextId ∧ m.conversationId = cid ∧
          m.senderId = s ∧ m.createdAt = now ∧ m.content = jsTrim content ∧
          m.mtype = opts.mtype)) ∧
    (jsTrim content = "" → opts.attachments = [] → opts.mtype ≠ MessageType.system →
      sendMessage db now cid s content opts = Except.error ChatError.emptyMessage) := by
  constructor
  · intro hv
    have hval : (jsTrim content == "" && opts.attachments.length == 0 &&
        !(opts.mtype == MessageType.system)) = false := by
      rcases hv with h | h | h
      · simp [h]
      · simp [h, List.length_eq_zero]
      · simp [h]
    refine ⟨_, sendMessage_ok db now cid s content opts conv hconv hval, ?_, ?_, ?_, ?_⟩
    · intro u q hq hu hact
      have hg : ∀ p : Participant,
          ((fun p : Participant => p.conversationId == cid && p.userId == u)
            ((fun p : Participant =>
              if p.conversationId == cid && !(p.userId == s) && p.isActive
              then { p with unreadCount := p.unreadCount + 1 }
              else p) p))
          = (fun p : Participant => p.conversationId == cid && p.userId == u) p := by
        intro p
        by_cases h : (p.conversationId == cid && !(p.userId == s) && p.isActive) = true
        · simp only [if_pos h]
        · simp only [if_neg h]
      simp only [participantOf] at hq
      simp only [participantOf_mk]
      rw [find?_map_pres _ _ db.participants hg, hq]
      have hq' := List.find?_some hq
      simp only [Bool.and_eq_true, beq_iff_eq] at hq'
      have hcond : (q.conversationId == cid && !(q.userId == s) && q.isActive) = true := by
        simp [hq'.1, hq'.2, hu, hact]
      show some (if (q.conversationId == cid && !(q.userId == s) && q.isActive) = true
          then { q with unreadCount := q.unreadCount + 1 } else q)
        = some { q with unreadCount := q.unreadCount + 1 }
      rw [if_pos hcond]
    · intro q hq
      have hg : ∀ p : Participant,
          ((fun p : Participant => p.conversationId == cid && p.userId == s)
            ((fun p : Participant =>
              if p.conversationId == cid && !(p.userId == s) && p.isActive
              then { p with unreadCount := p.unreadCount + 1 }
              else p) p))
          = (fun p : Participant => p.conversationId == cid && p.userId == s) p := by
        intro p
        by_cases h : (p.conversationId == cid && !(p.userId == s) && p.isActive) = true
        · simp only [if_pos h]
        · simp only [if_neg h]
      simp only [participantOf] at hq
      simp only [participantOf_mk]
      rw [find?_map_pres _ _ db.participants hg, hq]
      have hq' := List.find?_some hq
      simp only [Bool.and_eq_true, beq_iff_eq] at hq'
      have hcond : (q.conversationId == cid && !(q.userId == s) && q.isActive) = false := by
        simp [hq'.2]
      show some (if (q.conversationId == cid && !(q.userId == s) && q.isActive) = true
          then { q with unreadCount := q.unreadCount + 1 } else q) = some q
      rw [if_neg (by simp [hcond])]
    · intro c0 hc0
      have hpf : ∀ c : Conversation, ((fun c : Conversation => c.id == cid) c) = true →
          ((fun c : Conversation => c.id == cid)
            ((fun c : Conversation =>
              { c with
                lastMessage := some db.nextId,
                lastMessageAt := some now,
                lastMessagePreview :=
                  some (generateMessagePreview content opts.mtype opts.attachments),
                totalMessages := c.totalMessages + 1 }) c)) = true := by
        intro c h
        exact h
      simp only [convOf] at hc0
      simp only [convOf_mk]
      rw [find?_updateFirst _ _ db.conversations hpf, hc0]
      rfl
    · refine ⟨{ id := db.nextId,
                conversationId := cid,
                senderId := s,
                content := jsTrim content,
                mtype := opts.mtype,
                attachments := opts.attachments,
                replyTo := opts.replyTo,
                mentions := opts.mentions,
                createdAt := now }, ?_, rfl, rfl, rfl, rfl, rfl, rfl⟩
      simp [List.mem_append]
  · intro h1 h2 h3
    simp [sendMessage, hconv, h1, h2, h3]

/-- C2 witness: user 1 sends "hi" in the two-user conversation; the call
succeeds and the unread count of user 2 rises from 0 to 1. -/
theorem sendMessage_spec_witness :
    ∃ db1, sendMessage dbC2 5 0 1 "hi" {} = Except.ok (db1, 3) ∧
      participantOf db1 0 2 = some { conversationId := 0, userId := 2, unreadCount := 1 } := by
  obtain ⟨db1, hrun, hbump, _, _, _⟩ :=
    (sendMessage_spec dbC2 5 0 1 "hi" {} convC2 (by decide)).1 (Or.inl (by decide))
  refine ⟨db1, hrun, ?_⟩
  have h := hbump 2 { conversationId := 0, userId := 2 } (by decide) (by decide) rfl
  exact h

/-! ### C5 and C10: tombstoning, edits on tombstones, and the pre-save hook -/

theorem msgOf_id (db : DB) (i : Nat) (m : Message) (h : msgOf db i = some m) :
    (m.id == i) = true := by
  unfold msgOf at h
  have h2 := List.find?_some h
  exact h2

theorem msgOf_replaceMsg (db : DB) (i : Nat) (m : Message)
    (hid : (m.id == i) = true) :
    msgOf (replaceMsg db i m) i = (msgOf db i).map (fun _ => m) := by
  simp only [replaceMsg, msgOf_mk]
  exact find?_updateFirst _ _ db.messages (fun a _ => hid)

theorem presaveHook_fields (orig upd : Message) (now : Nat) :
    (presaveHook orig upd now).id = upd.id ∧
    (presaveHook orig upd now).senderId = upd.senderId ∧
    (presaveHook orig upd now).content = upd.content ∧
    (presaveHook orig upd now).attachments = upd.attachments ∧
    (presaveHook orig upd now).isDeleted = upd.isDeleted := by
  unfold presaveHook
  split <;> simp

/-- Evaluation of deleteMessage for everyone by the sender. -/
theorem deleteMessage_forEveryone_ok (db : DB) (now mid u : Nat) (m : Message)
    (hm : msgOf db mid = some m) (hs : m.senderId = u) :
    deleteMessage db now mid u true = Except.ok
      (replaceMsg db mid (presaveHook m
        { m with
          isDeleted := true,
          deletedAt := some now,
          content := "This message was deleted",
          attachments := [] } now)) := by
  simp [deleteMessage, hm, hs]

/-- C5 amended: deleteMessage for everyone by the sender tombstones the
message (isDeleted set, attachments cleared, content replaced by the fixed
placeholder); afterwards every editMessage call on it fails — with the
not-found error when made by the sender and with the cannot-edit-others error
when made by anyone else — so the tombstoned content is never changed by an
edit; and deleteMessage for everyone by any user other than the sender fails. -/
theorem deleteMessage_tombstone_spec (db : DB) (now mid u : Nat) (m : Message)
    (hm : msgOf db mid = some m) (hs : m.senderId = u) :
    ∃ db1, deleteMessage db now mid u true = Except.ok db1 ∧
      (∀ mt, msgOf db1 mid = some mt →
        mt.isDeleted = true ∧ mt.attachments = [] ∧
        mt.content = "This message was deleted") ∧
      (∀ t v c, editMessage db1 t mid v c =
        Except.error (if v = u then ChatError.messageNotFound
                      else ChatError.cannotEditOthersMessage)) ∧
      (∀ t w, w ≠ u → deleteMessage db t mid w true =
        Except.error ChatError.cannotDeleteOthersMessage) := by
  have hm2 : (m.id == mid) = true := msgOf_id db mid m hm
  have hid : ((presaveHook m
      { m with
        isDeleted := true,
        deletedAt := some now,
        content := "This message was deleted",
        attachments := [] } now).id == mid) = true := by
    rw [(presaveHook_fields _ _ _).1]
    exact hm2
  have hmt : msgOf (replaceMsg db mid (presaveHook m
      { m with
        isDeleted := true,
        deletedAt := some now,
        content := "This message was deleted",
        attachments := [] } now)) mid
      = some (presaveHook m
        { m with
          isDeleted := true,
          deletedAt := some now,
          content := "This message was deleted",
          attachments := [] } now) := by
    rw [msgOf_replaceMsg db mid _ hid, hm]
    rfl
  obtain ⟨hfid, hfsender, hfcontent, hfatt, hfdel⟩ := presaveHook_fields m
    ({ m with
       isDeleted := true,
       deletedAt := some now,
       content := "This message was deleted",
       attachments := [] }) now
  refine ⟨_, deleteMessage_forEveryone_ok db now mid u m hm hs, ?_, ?_, ?_⟩
  · intro mt hmt'
    rw [hmt] at hmt'
    cases hmt'
    exact ⟨hfdel, hfatt, hfcontent⟩
  · intro t v c
    by_cases hv : v = u
    · subst hv
      have hsv : ((presaveHook m
          { m with
            isDeleted := true,
            deletedAt := some now,
            content := "This message was deleted",
            attachments := [] } now).senderId == v) = true := by
        rw [hfsender]
        show (m.senderId == v) = true
        rw [hs]
        simp
      simp [editMessage, hmt, hsv, hfdel]
    · have hsv : ((presaveHook m
          { m with
            isDeleted := true,
            deletedAt := some now,
            content := "This message was deleted",
            attachments := [] } now).senderId == v) = false := by
        rw [hfsender]
        show (m.senderId == v) = false
        rw [hs]
        simpa using Ne.symm hv
      simp [editMessage, hmt, hsv, hv]
  · intro t w hw
    have hsw : (m.senderId == w) = false := by
      rw [hs]
      simpa using Ne.symm hw
    simp [deleteMessage, hm, hsw]

/-- C5 witness: the sender tombstones the message; their own later edit fails
with the not-found error. -/
theorem deleteMessage_tombstone_spec_witness :
    ∃ db1, deleteMessage dbC5 4 1 1 true = Except.ok db1 ∧
      editMessage db1 6 1 1 "zz" = Except.error ChatError.messageNotFound := by
  obtain ⟨db1, hdel, _, hedit, _⟩ :=
    deleteMessage_tombstone_spec dbC5 4 1 1
      { id := 1, conversationId := 10, senderId := 1, content := "hi", createdAt := 0 }
      (by decide) rfl
  refine ⟨db1, hdel, ?_⟩
  have h := hedit 6 1 "zz"
  simpa using h

/-- C5 counterexample: after the sender tombstones message 1, an edit attempt
by user 2 fails with the cannot-edit-others error, not with the not-found
error the claim requires of every subsequent edit. -/
theorem editMessage_tombstone_counterexample :
    ∃ db1, deleteMessage dbC5 4 1 1 true = Except.ok db1 ∧
      editMessage db1 6 1 2 "zz" = Except.error ChatError.cannotEditOthersMessage ∧
      ChatError.cannotEditOthersMessage ≠ ChatError.messageNotFound := by
  refine ⟨_, rfl, rfl, by decide⟩

/-- C10 amended: a save that changes the content of an already persisted
message sets isEdited and editedAt to the save time; in particular
deleteMessage for everyone leaves the tombstone with isEdited = true whenever
the prior content differed from the placeholder text. -/
theorem presaveHook_marksEdited_spec (db : DB) (now mid u : Nat) (m : Message)
    (hm : msgOf db mid = some m) (hs : m.senderId = u)
    (hc : m.content ≠ "This message was deleted") :
    (∀ orig upd : Message, upd.content ≠ orig.content →
      (presaveHook orig upd now).isEdited = true ∧
      (presaveHook orig upd now).editedAt = some now) ∧
    (∃ db1, deleteMessage db now mid u true = Except.ok db1 ∧
      ∀ mt, msgOf db1 mid = some mt →
        mt.isEdited = true ∧ mt.editedAt = some now) := by
  constructor
  · intro orig upd hne
    unfold presaveHook
    rw [if_neg (by simpa using hne)]
    exact ⟨rfl, rfl⟩
  · have hm2 : (m.id == mid) = true := msgOf_id db mid m hm
    have hookEq : presaveHook m
        { m with
          isDeleted := true,
          deletedAt := some now,
          content := "This message was deleted",
          attachments := [] } now
        = { m with
            isDeleted := true,
            deletedAt := some now,
            content := "This message was deleted",
            attachments := [],
            isEdited := true,
            editedAt := some now } := by
      unfold presaveHook
      rw [if_neg (by simpa using Ne.symm hc)]
    have hid : ((presaveHook m
        { m with
          isDeleted := true,
          deletedAt := some now,
          content := "This message was deleted",
          attachments := [] } now).id == mid) = true := by
      rw [(presaveHook_fields _ _ _).1]
      exact hm2
    have hmt : msgOf (replaceMsg db mid (presaveHook m
        { m with
          isDeleted := true,
          deletedAt := some now,
          content := "This message was deleted",
          attachments := [] } now)) mid
        = some (presaveHook m
          { m with
            isDeleted := true,
            deletedAt := some now,
            content := "This message was deleted",
            attachments := [] } now) := by
      rw [msgOf_replaceMsg db mid _ hid, hm]
      rfl
    refine ⟨_, deleteMessage_forEveryone_ok db now mid u m hm hs, ?_⟩
    intro mt hmt'
    rw [hmt, hookEq] at hmt'
    cases hmt'
    exact ⟨rfl, rfl⟩

/-- C10 witness: deleting the "hi" message for everyone marks it edited at the
deletion time. -/
theorem presaveHook_marksEdited_spec_witness :
    ∃ db1, deleteMessage dbC5 4 1 1 true = Except.ok db1 ∧
      ∀ mt, msgOf db1 1 = some mt → mt.isEdited = true ∧ mt.editedAt = some 4 :=
  (presaveHook_marksEdited_spec dbC5 4 1 1
    { id := 1, conversationId := 10, senderId := 1, content := "hi", createdAt := 0 }
    (by decide) rfl (by decide)).2

/-- C10 counterexample: deleting for everyone a message whose content already
equals the placeholder does not modify the content, so the pre-save hook does
not fire and the tombstoned message keeps isEdited = false — against the
claim that deleteMessage for everyone always leaves isEdited = true. -/
theorem tombstone_isEdited_counterexample :
    ∃ db1, deleteMessage dbC10 9 1 7 true = Except.ok db1 ∧
      ∃ mt, msgOf db1 1 = some mt ∧ mt.isDeleted = true ∧ mt.isEdited = false := by
  refine ⟨_, rfl, ⟨_, rfl, rfl, rfl⟩⟩

/-! ### C4: reaction toggling -/

theorem findReactionIdx_none (uid : Nat) (emoji : String) (l : List Reaction) :
    findReactionIdx uid emoji l = none ↔
      ∀ r ∈ l, (r.emoji == emoji && r.userId == uid) = false := by
  induction l with
  | nil => simp [findReactionIdx]
  | cons r rest ih =>
    unfold findReactionIdx
    by_cases h : (r.emoji == emoji && r.userId == uid) = true
    · rw [if_pos h]
      constructor
      · intro hc
        exact absurd hc (by simp)
      · intro hall
        have h2 := hall r (List.mem_cons_self r rest)
        rw [h] at h2
        exact absurd h2 (by simp)
    · rw [if_neg h]
      have h' : (r.emoji == emoji && r.userId == uid) = false := by simpa using h
      constructor
      · intro hc
        have hn : findReactionIdx uid emoji rest = none := by
          cases hfi : findReactionIdx uid emoji rest with
          | none => rfl
          | some i =>
            rw [hfi] at hc
            exact absurd hc (by simp)
        intro x hx
        rcases List.mem_cons.mp hx with rfl | hx2
        · exact h'
        · exact (ih.mp hn) x hx2
      · intro hall
        have hn : findReactionIdx uid emoji rest = none :=
          ih.mpr (fun x hx => hall x (List.mem_cons_of_mem r hx))
        rw [hn]
        rfl

theorem toggleReactionList_absent (uid : Nat) (emoji : String) (now : Nat)
    (l : List Reaction)
    (h : ∀ r ∈ l, (r.emoji == emoji && r.userId == uid) = false) :
    toggleReactionList uid emoji now l = (l ++ [⟨emoji, uid, now⟩], true) := by
  unfold toggleReactionList
  rw [(findReactionIdx_none uid emoji l).mpr h]

theorem findReactionIdx_append (uid : Nat) (emoji : String)
    (l1 l2 : List Reaction) (r0 : Reaction)
    (h0 : (r0.emoji == emoji && r0.userId == uid) = true) :
    (∀ r ∈ l1, (r.emoji == emoji && r.userId == uid) = false) →
    findReactionIdx uid emoji (l1 ++ r0 :: l2) = some l1.length := by
  induction l1 with
  | nil =>
    intro _
    simp [findReactionIdx, h0]
  | cons a rest ih =>
    intro h1
    have ha := h1 a (by simp)
    simp [findReactionIdx, ha, ih (fun r hr => h1 r (by simp [hr]))]

theorem eraseIdx_append_length {α : Type} (l1 l2 : List α) (r0 : α) :
    (l1 ++ r0 :: l2).eraseIdx l1.length = l1 ++ l2 := by
  induction l1 with
  | nil => simp [List.eraseIdx]
  | cons a rest ih => simp [List.eraseIdx, ih]

theorem toggleReactionList_present (uid : Nat) (emoji : String) (now : Nat)
    (l1 l2 : List Reaction) (r0 : Reaction)
    (h1 : ∀ r ∈ l1, (r.emoji == emoji && r.userId == uid) = false)
    (h0 : (r0.emoji == emoji && r0.userId == uid) = true) :
    toggleReactionList uid emoji now (l1 ++ r0 :: l2) = (l1 ++ l2, false) := by
  unfold toggleReactionList
  rw [findReactionIdx_append uid emoji l1 l2 r0 h0 h1]
  show ((l1 ++ r0 :: l2).eraseIdx l1.length, false) = (l1 ++ l2, false)
  rw [eraseIdx_append_length]

theorem exists_first_match {α : Type} (p : α → Bool) (l : List α)
    (h : ∃ r ∈ l, p r = true) :
    ∃ l1 r0 l2, l = l1 ++ r0 :: l2 ∧ (∀ r ∈ l1, p r = false) ∧ p r0 = true := by
  induction l with
  | nil => simp at h
  | cons a rest ih =>
    by_cases ha : p a = true
    · exact ⟨[], a, rest, rfl, by simp, ha⟩
    · have ha' : p a = false := by simpa using ha
      have h' : ∃ r ∈ rest, p r = true := by
        rcases h with ⟨r, hr, hpr⟩
        rcases List.mem_cons.mp hr with rfl | hr2
        · rw [ha'] at hpr
          exact absurd hpr (by simp)
        · exact ⟨r, hr2, hpr⟩
      rcases ih h' with ⟨l1, r0, l2, heq, hcl, hp0⟩
      refine ⟨a :: l1, r0, l2, by rw [heq, List.cons_append], ?_, hp0⟩
      intro r hr
      rcases List.mem_cons.mp hr with rfl | h2
      · exact ha'
      · exact hcl r h2

theorem reactionPred_iff_key (uid : Nat) (emoji : String) (r : Reaction) :
    ((r.emoji == emoji && r.userId == uid) = true) ↔ reactionKey r = (emoji, uid) := by
  simp [reactionKey, Prod.ext_iff]

/-- Evaluation of toggleReaction when the message exists. -/
theorem toggleReaction_ok (db : DB) (now mid uid : Nat) (emoji : String)
    (m : Message) (hm : msgOf db mid = some m) :
    toggleReaction db now mid uid emoji = Except.ok
      (replaceMsg db mid
        { m with reactions := (toggleReactionList uid emoji now m.reactions).1 },
       (toggleReactionList uid emoji now m.reactions).2) := by
  simp only [toggleReaction, hm]

theorem msgOf_setReactions (db : DB) (mid : Nat) (m : Message) (rs : List Reaction)
    (hm : msgOf db mid = some m) :
    msgOf (replaceMsg db mid { m with reactions := rs }) mid
      = some { m with reactions := rs } := by
  have hid : (({ m with reactions := rs } : Message).id == mid) = true :=
    msgOf_id db mid m hm
  rw [msgOf_replaceMsg db mid _ hid, hm]
  rfl

/-- C4 amended: toggleReaction removes the first matching (emoji, user) entry
when one is present and appends a single fresh entry when absent, preserving
freedom from duplicate (emoji, userId) pairs; toggling twice restores the
multiset of (emoji, userId) pairs of the reaction list — and the exact
original list when the reaction was initially absent — though a re-added
entry sits at the end of the list with a fresh timestamp rather than at its
original position. -/
theorem toggleReaction_amended (db : DB) (t1 t2 mid uid : Nat) (emoji : String)
    (m : Message) (hm : msgOf db mid = some m)
    (hnd : (m.reactions.map reactionKey).Nodup) :
    ∃ db1 rs1 added,
      toggleReaction db t1 mid uid emoji = Except.ok (db1, added) ∧
      msgOf db1 mid = some { m with reactions := rs1 } ∧
      (rs1.map reactionKey).Nodup ∧
      (added = true ↔ ∀ r ∈ m.reactions, reactionKey r ≠ (emoji, uid)) ∧
      (added = true → rs1 = m.reactions ++ [⟨emoji, uid, t1⟩]) ∧
      ∃ db2 rs2,
        toggleReaction db1 t2 mid uid emoji = Except.ok (db2, !added) ∧
        msgOf db2 mid = some { m with reactions := rs2 } ∧
        (rs2.map reactionKey).Perm (m.reactions.map reactionKey) ∧
        (added = true → rs2 = m.reactions) := by
  by_cases hex : ∃ r ∈ m.reactions, (r.emoji == emoji && r.userId == uid) = true
  · -- the (emoji, uid) reaction is present: the toggle removes its first entry
    rcases exists_first_match _ m.reactions hex with ⟨l1, r0, l2, heq, hcl, hp0⟩
    have hkey0 : reactionKey r0 = (emoji, uid) := (reactionPred_iff_key uid emoji r0).mp hp0
    have htog1 : toggleReactionList uid emoji t1 m.reactions = (l1 ++ l2, false) := by
      rw [heq]
      exact toggleReactionList_present uid emoji t1 l1 l2 r0 hcl hp0
    have run1 := toggleReaction_ok db t1 mid uid emoji m hm
    simp only [htog1] at run1
    have msg1 := msgOf_setReactions db mid m (l1 ++ l2) hm
    have hndm := hnd
    rw [heq, List.map_append, List.map_cons] at hndm
    have hnd' : (reactionKey r0 :: (l1.map reactionKey ++ l2.map reactionKey)).Nodup :=
      List.nodup_middle.mp hndm
    have hnd1 : ((l1 ++ l2).map reactionKey).Nodup := by
      rw [List.map_append]
      exact (List.nodup_cons.mp hnd').2
    have hnotin2 : reactionKey r0 ∉ (l1 ++ l2).map reactionKey := by
      rw [List.map_append]
      exact (List.nodup_cons.mp hnd').1
    have hclean2 : ∀ r ∈ l1 ++ l2, (r.emoji == emoji && r.userId == uid) = false := by
      intro r hr
      by_cases hp : (r.emoji == emoji && r.userId == uid) = true
      · exfalso
        have hk := (reactionPred_iff_key uid emoji r).mp hp
        exact hnotin2 (List.mem_map.mpr ⟨r, hr, by rw [hk, hkey0]⟩)
      · simpa using hp
    have htog2 : toggleReactionList uid emoji t2 (l1 ++ l2)
        = ((l1 ++ l2) ++ [⟨emoji, uid, t2⟩], true) :=
      toggleReactionList_absent uid emoji t2 (l1 ++ l2) hclean2
    have run2 := toggleReaction_ok _ t2 mid uid emoji _ msg1
    simp only [htog2] at run2
    have msg2 := msgOf_setReactions _ mid ({ m with reactions := l1 ++ l2 })
      ((l1 ++ l2) ++ [⟨emoji, uid, t2⟩]) msg1
    refine ⟨_, l1 ++ l2, false, run1, msg1, hnd1, ?_, ?_, ?_⟩
    · constructor
      · intro h
        exact absurd h (by simp)
      · intro hall
        exact absurd hkey0
          (hall r0 (by rw [heq]; exact List.mem_append_right _ (List.mem_cons_self _ _)))
    · intro h
      exact absurd h (by simp)
    · refine ⟨_, (l1 ++ l2) ++ [(⟨emoji, uid, t2⟩ : Reaction)], run2, msg2, ?_, ?_⟩
      · rw [heq, List.map_append, List.map_append, List.map_cons, List.map_nil,
          List.map_append, List.map_cons]
        have hk2 : reactionKey ⟨emoji, uid, t2⟩ = reactionKey r0 := by
          rw [hkey0]
          rfl
        rw [hk2]
        exact (List.perm_append_singleton _ _).trans List.perm_middle.symm
      · intro h
        exact absurd h (by simp)
  · -- the (emoji, uid) reaction is absent: the toggle appends a fresh entry
    have hall : ∀ r ∈ m.reactions, (r.emoji == emoji && r.userId == uid) = false := by
      intro r hr
      by_cases hp : (r.emoji == emoji && r.userId == uid) = true
      · exact absurd ⟨r, hr, hp⟩ hex
      · simpa using hp
    have hnotin : (emoji, uid) ∉ m.reactions.map reactionKey := by
      intro hc
      rcases List.mem_map.mp hc with ⟨r, hr, hkey⟩
      have hp := (reactionPred_iff_key uid emoji r).mpr hkey
      rw [hall r hr] at hp
      exact absurd hp (by simp)
    have htog1 : toggleReactionList uid emoji t1 m.reactions
        = (m.reactions ++ [⟨emoji, uid, t1⟩], true) :=
      toggleReactionList_absent uid emoji t1 m.reactions hall
    have run1 := toggleReaction_ok db t1 mid uid emoji m hm
    simp only [htog1] at run1
    have msg1 := msgOf_setReactions db mid m (m.reactions ++ [⟨emoji, uid, t1⟩]) hm
    have hnd1 : ((m.reactions ++ [(⟨emoji, uid, t1⟩ : Reaction)]).map reactionKey).Nodup := by
      rw [List.map_append, List.map_cons, List.map_nil, List.nodup_append]
      refine ⟨hnd, by simp, ?_⟩
      intro a ha hb
      rcases List.mem_singleton.mp hb with rfl
      exact hnotin (by simpa [reactionKey] using ha)
    have hp0 : ((⟨emoji, uid, t1⟩ : Reaction).emoji == emoji &&
        (⟨emoji, uid, t1⟩ : Reaction).userId == uid) = true := by
      simp
    have htog2 : toggleReactionList uid emoji t2 (m.reactions ++ [⟨emoji, uid, t1⟩])
        = (m.reactions ++ [], false) :=
      toggleReactionList_present uid emoji t2 m.reactions [] ⟨emoji, uid, t1⟩ hall hp0
    have run2 := toggleReaction_ok _ t2 mid uid emoji _ msg1
    simp only [htog2] at run2
    have msg2 := msgOf_setReactions _ mid ({ m with reactions := m.reactions ++ [⟨emoji, uid, t1⟩] })
      (m.reactions ++ []) msg1
    refine ⟨_, m.reactions ++ [(⟨emoji, uid, t1⟩ : Reaction)], true, run1, msg1, hnd1, ?_, ?_, ?_⟩
    · constructor
      · intro _ r hr hk
        have hp := (reactionPred_iff_key uid emoji r).mpr hk
        rw [hall r hr] at hp
        exact absurd hp (by simp)
      · intro _
        rfl
    · intro _
      rfl
    · refine ⟨_, m.reactions ++ [], run2, msg2, ?_, ?_⟩
      · rw [List.append_nil]
      · intro _
        exact List.append_nil _

/-- C4 witness: toggling the existing ("a", user 1) reaction on the stored
message succeeds and keeps the reaction list free of duplicate pairs. -/
theorem toggleReaction_amended_witness :
    ∃ db1 rs1 added,
      toggleReaction dbC4 5 1 1 "a" = Except.ok (db1, added) ∧
      msgOf db1 1 = some { msgC4 with reactions := rs1 } ∧
      (rs1.map reactionKey).Nodup := by
  obtain ⟨db1, rs1, added, h1, h2, h3, _⟩ :=
    toggleReaction_amended dbC4 5 6 1 1 "a" msgC4 (by decide) (by decide)
  exact ⟨db1, rs1, added, h1, h2, h3⟩

/-- C4 counterexample: user 1 toggles "a" twice on the stored message whose
reaction list is [("a",1,@0), ("b",2,@0)]; the result has the re-added entry
at the end with a fresh timestamp ([("b",2,@0), ("a",1,@6)]), so the original
reaction list is not restored. -/
theorem toggleReaction_not_involution :
    ∃ db1 db2, toggleReaction dbC4 5 1 1 "a" = Except.ok (db1, false) ∧
      toggleReaction db1 6 1 1 "a" = Except.ok (db2, true) ∧
      msgOf db2 1 ≠ msgOf dbC4 1 := by
  refine ⟨_, _, rfl, rfl, by decide⟩

/-! ### C3 and C6: markAsRead -/

theorem addReadEntry_fields (uid now : Nat) (m : Message) :
    (addReadEntry uid now m).id = m.id ∧
    (addReadEntry uid now m).conversationId = m.conversationId ∧
    (addReadEntry uid now m).senderId = m.senderId ∧
    (addReadEntry uid now m).createdAt = m.createdAt := by
  unfold addReadEntry
  split <;> simp

theorem readUpd_fields (uid now : Nat) (ids : List Nat) (m : Message) :
    (readUpd uid now ids m).id = m.id ∧
    (readUpd uid now ids m).conversationId = m.conversationId ∧
    (readUpd uid now ids m).senderId = m.senderId ∧
    (readUpd uid now ids m).createdAt = m.createdAt := by
  unfold readUpd
  split
  · exact addReadEntry_fields uid now m
  · exact ⟨rfl, rfl, rfl, rfl⟩

/-- Single evaluation equation of markAsRead: the participant record is reset
and every collected message receives the read receipt; the returned list is
exactly the collected ids. -/
theorem markAsRead_eq (db : DB) (now cid uid : Nat) (mid? : Option Nat) :
    markAsRead db now cid uid mid? =
      ({ db with
          participants := updateFirst
            (fun p => p.conversationId == cid && p.userId == uid)
            (readPartUpd now mid?)
            db.participants,
          messages := db.messages.map (readUpd uid now (readIds db cid uid mid?)) },
       readIds db cid uid mid?) := by
  unfold markAsRead readIds readUpd readPartUpd addReadEntry
  by_cases he : (db.messages.filter (unreadFilter db cid uid mid?)).isEmpty = true
  · rw [if_pos he]
    have hnil : db.messages.filter (unreadFilter db cid uid mid?) = [] :=
      List.isEmpty_iff.mp he
    rw [hnil]
    simp
  · rw [if_neg he]

/-- The Boolean message filter computed by markAsRead coincides with the
specification-side qualification predicate. -/
theorem unreadFilter_iff (db : DB) (cid uid : Nat) (mid? : Option Nat) (m : Message) :
    unreadFilter db cid uid mid? m = true ↔ specReadQualifies db cid uid mid? m := by
  unfold unreadFilter readCutoff specReadQualifies
  cases mid? with
  | none =>
    simp [List.any_eq_true]
    tauto
  | some r =>
    cases hr : msgOf db r with
    | none =>
      simp [List.any_eq_true, hr]
      aesop
    | some t =>
      simp [List.any_eq_true, hr]
      aesop

/-- C3: markAsRead resets the caller participant record — unreadCount 0,
lastReadAt updated, and lastReadMessageId set when a reference message id is
given — and appends a (userId, now) read receipt to exactly those stored
messages of the conversation that were not sent by the caller, were created
at or before the reference message when one is given and stored (all such
messages otherwise), and do not already carry the caller in readBy; the
returned list holds exactly the ids of those messages. -/
theorem markAsRead_spec (db : DB) (now cid uid : Nat) (mid? : Option Nat)
    (hids : (db.messages.map Message.id).Nodup)
    (db1 : DB) (affected : List Nat)
    (hrun : markAsRead db now cid uid mid? = (db1, affected)) :
    (∀ q, participantOf db cid uid = some q →
      ∃ q', participantOf db1 cid uid = some q' ∧
        q'.unreadCount = 0 ∧ q'.lastReadAt = some now ∧
        (∀ r, mid? = some r → q'.lastReadMessageId = some r) ∧
        (mid? = none → q'.lastReadMessageId = q.lastReadMessageId)) ∧
    (∀ i, i ∈ affected ↔
      ∃ m ∈ db.messages, m.id = i ∧ specReadQualifies db cid uid mid? m) ∧
    (∀ i m, msgOf db i = some m →
      (specReadQualifies db cid uid mid? m →
        msgOf db1 i = some { m with readBy := m.readBy ++ [⟨uid, now⟩] }) ∧
      (¬ specReadQualifies db cid uid mid? m → msgOf db1 i = some m)) := by
  rw [markAsRead_eq, Prod.mk.injEq] at hrun
  obtain ⟨hdb1, haff⟩ := hrun
  subst hdb1
  subst haff
  refine ⟨?_, ?_, ?_⟩
  · intro q hq
    simp only [participantOf] at hq
    refine ⟨readPartUpd now mid? q, ?_, rfl, rfl, ?_, ?_⟩
    · simp only [participantOf_mk]
      rw [find?_updateFirst _ (readPartUpd now mid?) db.participants
        (fun a ha => by unfold readPartUpd; exact ha), hq]
      rfl
    · intro r hr
      subst hr
      rfl
    · intro hn
      subst hn
      rfl
  · intro i
    unfold readIds
    simp only [List.mem_map, List.mem_filter]
    constructor
    · rintro ⟨m, ⟨hm, hf⟩, rfl⟩
      exact ⟨m, hm, rfl, (unreadFilter_iff db cid uid mid? m).mp hf⟩
    · rintro ⟨m, hm, rfl, hq⟩
      exact ⟨m, ⟨hm, (unreadFilter_iff db cid uid mid? m).mpr hq⟩, rfl⟩
  · intro i m hmi
    have hmem : m ∈ db.messages := by
      unfold msgOf at hmi
      exact List.mem_of_find?_eq_some hmi
    have hmap : msgOf
        ({ conversations := db.conversations,
           participants := updateFirst
             (fun p => p.conversationId == cid && p.userId == uid)
             (readPartUpd now mid?) db.participants,
           messages := db.messages.map (readUpd uid now (readIds db cid uid mid?)),
           nextId := db.nextId } : DB) i
        = (msgOf db i).map (readUpd uid now (readIds db cid uid mid?)) := by
      simp only [msgOf_mk]
      unfold msgOf
      refine find?_map_pres _ _ _ ?_
      intro a
      show ((readUpd uid now (readIds db cid uid mid?) a).id == i) = (a.id == i)
      rw [(readUpd_fields uid now (readIds db cid uid mid?) a).1]
    constructor
    · intro hq
      have hf : unreadFilter db cid uid mid? m = true :=
        (unreadFilter_iff db cid uid mid? m).mpr hq
      have hin : (readIds db cid uid mid?).contains m.id = true := by
        apply List.elem_eq_true_of_mem
        unfold readIds
        exact List.mem_map.mpr ⟨m, List.mem_filter.mpr ⟨hmem, hf⟩, rfl⟩
      have hnone : (m.readBy.any (fun s => s.userId == uid && s.readAt == now)) = false := by
        rw [← Bool.not_eq_true]
        intro hany
        rcases List.any_eq_true.mp hany with ⟨s, hs, hps⟩
        rw [Bool.and_eq_true] at hps
        exact absurd (by simpa using hps.1) (hq.2.2.2 s hs)
      rw [hmap, hmi]
      show some (readUpd uid now (readIds db cid uid mid?) m) = _
      unfold readUpd addReadEntry
      rw [if_pos hin, if_neg (by simp [hnone])]
    · intro hq
      have hnin : (readIds db cid uid mid?).contains m.id = false := by
        rw [← Bool.not_eq_true]
        intro hc
        have hmm := List.mem_of_elem_eq_true hc
        unfold readIds at hmm
        rcases List.mem_map.mp hmm with ⟨m', hm', hid'⟩
        rcases List.mem_filter.mp hm' with ⟨hm'mem, hf'⟩
        have heqm : m' = m := List.inj_on_of_nodup_map hids hm'mem hmem hid'
        rw [heqm] at hf'
        exact hq ((unreadFilter_iff db cid uid mid? m).mp hf')
      rw [hmap, hmi]
      show some (readUpd uid now (readIds db cid uid mid?) m) = some m
      unfold readUpd
      rw [if_neg (by rw [hnin]; simp)]

/-- C3 witness: user 2 marks conversation 10 as read up to message 1; the
participant record is reset and message 1 is among the affected ids. -/
theorem markAsRead_spec_witness :
    (∃ q', participantOf (markAsRead dbC3 9 10 2 (some 1)).1 10 2 = some q' ∧
      q'.unreadCount = 0 ∧ q'.lastReadAt = some 9 ∧ q'.lastReadMessageId = some 1) ∧
    1 ∈ (markAsRead dbC3 9 10 2 (some 1)).2 := by
  obtain ⟨hpart, haff, _⟩ :=
    markAsRead_spec dbC3 9 10 2 (some 1) (by decide) _ _ rfl
  constructor
  · obtain ⟨q', h1, h2, h3, h4, _⟩ :=
      hpart { conversationId := 10, userId := 2, unreadCount := 3 } (by decide)
    exact ⟨q', h1, h2, h3, h4 1 rfl⟩
  · refine (haff 1).mpr
      ⟨{ id := 1, conversationId := 10, senderId := 1, content := "hi", createdAt := 4 },
       by decide, rfl, rfl, by decide, ?_, ?_⟩
    · intro r t hr ht
      injection hr with h
      subst h
      have hmsg : msgOf dbC3 1
          = some { id := 1, conversationId := 10, senderId := 1,
                   content := "hi", createdAt := 4 } := rfl
      rw [hmsg] at ht
      cases ht
      decide
    · intro s hs
      exact absurd hs (List.not_mem_nil s)

theorem msgOf_map_readUpd (db db' : DB) (uid t1 : Nat) (ids : List Nat) (i : Nat)
    (hmsgs : db'.messages = db.messages.map (readUpd uid t1 ids)) :
    msgOf db' i = (msgOf db i).map (readUpd uid t1 ids) := by
  unfold msgOf
  rw [hmsgs]
  refine find?_map_pres _ _ _ ?_
  intro a
  show ((readUpd uid t1 ids a).id == i) = (a.id == i)
  rw [(readUpd_fields uid t1 ids a).1]

theorem readCutoff_map_stable (db db' : DB) (uid t1 : Nat) (ids : List Nat)
    (mid? : Option Nat) (m : Message)
    (hmsgs : db'.messages = db.messages.map (readUpd uid t1 ids)) :
    readCutoff db' mid? (readUpd uid t1 ids m) = readCutoff db mid? m := by
  unfold readCutoff
  cases mid? with
  | none => rfl
  | some r =>
    dsimp only
    rw [msgOf_map_readUpd db db' uid t1 ids r hmsgs]
    cases hmr : msgOf db r with
    | none => rfl
    | some t =>
      dsimp only [Option.map]
      rw [(readUpd_fields uid t1 ids m).2.2.2, (readUpd_fields uid t1 ids t).2.2.2]

theorem readUpd_any_mono (uid t1 : Nat) (ids : List Nat) (m : Message)
    (h : (m.readBy.any (fun s => s.userId == uid)) = true) :
    ((readUpd uid t1 ids m).readBy.any (fun s => s.userId == uid)) = true := by
  unfold readUpd addReadEntry
  split
  · split
    · exact h
    · rw [List.any_append]
      simp [h]
  · exact h

theorem readUpd_adds_receipt (uid t1 : Nat) (ids : List Nat) (m : Message)
    (hin : ids.contains m.id = true) :
    ((readUpd uid t1 ids m).readBy.any (fun s => s.userId == uid)) = true := by
  unfold readUpd addReadEntry
  rw [if_pos hin]
  by_cases hg : (m.readBy.any (fun s => s.userId == uid && s.readAt == t1)) = true
  · rw [if_pos hg]
    rcases List.any_eq_true.mp hg with ⟨s, hs, hps⟩
    rw [Bool.and_eq_true] at hps
    exact List.any_eq_true.mpr ⟨s, hs, hps.1⟩
  · rw [if_neg hg]
    rw [List.any_append]
    simp

/-- C6: markAsRead is idempotent on the message store: running it a second
time with the same arguments leaves every readBy set as it stood after the
first run and returns an empty affected-list. -/
theorem markAsRead_idem (db : DB) (t1 t2 cid uid : Nat) (mid? : Option Nat)
    (db1 : DB) (l1 : List Nat) (hrun1 : markAsRead db t1 cid uid mid? = (db1, l1))
    (db2 : DB) (l2 : List Nat) (hrun2 : markAsRead db1 t2 cid uid mid? = (db2, l2)) :
    l2 = [] ∧ db2.messages = db1.messages := by
  rw [markAsRead_eq, Prod.mk.injEq] at hrun1 hrun2
  obtain ⟨hdb1, hl1⟩ := hrun1
  obtain ⟨hdb2, hl2⟩ := hrun2
  have hmsgs1 : db1.messages = db.messages.map (readUpd uid t1 (readIds db cid uid mid?)) := by
    rw [← hdb1]
  have hids2 : readIds db1 cid uid mid? = [] := by
    unfold readIds
    rw [hmsgs1]
    rw [show (db.messages.map (readUpd uid t1 (readIds db cid uid mid?))).filter
        (unreadFilter db1 cid uid mid?) = [] from ?_]
    · rfl
    rw [List.filter_eq_nil_iff]
    intro m' hm'
    rcases List.mem_map.mp hm' with ⟨m, hm, rfl⟩
    intro hft
    unfold unreadFilter at hft
    rw [Bool.and_eq_true, Bool.and_eq_true, Bool.and_eq_true] at hft
    obtain ⟨⟨⟨hconv, hsend⟩, hcut⟩, hread⟩ := hft
    rw [Bool.not_eq_true'] at hread
    by_cases hf : unreadFilter db cid uid mid? m = true
    · have hin : (readIds db cid uid mid?).contains m.id = true := by
        apply List.elem_eq_true_of_mem
        unfold readIds
        exact List.mem_map.mpr ⟨m, List.mem_filter.mpr ⟨hm, hf⟩, rfl⟩
      have hany := readUpd_adds_receipt uid t1 (readIds db cid uid mid?) m hin
      rw [hany] at hread
      exact absurd hread (by simp)
    · apply hf
      unfold unreadFilter
      rw [Bool.and_eq_true, Bool.and_eq_true, Bool.and_eq_true]
      have hconv' : (m.conversationId == cid) = true := by
        rw [← (readUpd_fields uid t1 (readIds db cid uid mid?) m).2.1]
        exact hconv
      have hsend' : (!(m.senderId == uid)) = true := by
        rw [show m.senderId = (readUpd uid t1 (readIds db cid uid mid?) m).senderId from
          ((readUpd_fields uid t1 (readIds db cid uid mid?) m).2.2.1).symm]
        exact hsend
      have hcut' : readCutoff db mid? m = true := by
        rw [← readCutoff_map_stable db db1 uid t1 (readIds db cid uid mid?) mid? m hmsgs1]
        exact hcut
      have hread' : (m.readBy.any (fun s => s.userId == uid)) = false := by
        by_cases ha : (m.readBy.any (fun s => s.userId == uid)) = true
        · have := readUpd_any_mono uid t1 (readIds db cid uid mid?) m ha
          rw [this] at hread
          exact absurd hread (by simp)
        · simpa using ha
      exact ⟨⟨⟨hconv', hsend'⟩, hcut'⟩, by rw [hread']; rfl⟩
  constructor
  · rw [← hl2]
    exact hids2
  · rw [← hdb2]
    show db1.messages.map (readUpd uid t2 (readIds db1 cid uid mid?)) = db1.messages
    rw [hids2]
    have : ∀ m : Message, readUpd uid t2 [] m = m := by
      intro m
      unfold readUpd
      rfl
    rw [List.map_congr_left (fun m _ => this m)]
    exact List.map_id _

/-- C6 witness: the second of two identical markAsRead calls on the concrete
store returns no affected ids and leaves the messages unchanged. -/
theorem markAsRead_idem_witness :
    (markAsRead (markAsRead dbC3 9 10 2 none).1 12 10 2 none).2 = [] ∧
    (markAsRead (markAsRead dbC3 9 10 2 none).1 12 10 2 none).1.messages
      = (markAsRead dbC3 9 10 2 none).1.messages :=
  markAsRead_idem dbC3 9 12 10 2 none _ _ rfl _ _ rfl

/-! ### C8: authorization before mutation -/

/-- C8 counterexample: user 99 is not a participant of conversation 10 (the
authorization lookup returns nothing and no participant record exists), yet
toggleReaction persists a reaction by user 99 on message 5 — the state is
mutated without the caller being an active participant. -/
theorem toggleReaction_no_authorization :
    getConversation? dbC8 10 99 = none ∧
    participantOf dbC8 10 99 = none ∧
    ∃ db1, toggleReaction dbC8 3 5 99 "x" = Except.ok (db1, true) ∧
      ∃ m, msgOf db1 5 = some m ∧ (⟨"x", 99, 3⟩ : Reaction) ∈ m.reactions := by
  refine ⟨rfl, rfl, _, rfl, _, rfl, ?_⟩
  decide

/-- Evaluation of addReaction when the message exists. -/
theorem addReaction_ok (db : DB) (now mid uid : Nat) (emoji : String) (m : Message)
    (hm : msgOf db mid = some m) :
    addReaction db now mid uid emoji = Except.ok
      (if m.reactions.any (fun r => r.emoji == emoji && r.userId == uid) then db
       else replaceMsg db mid { m with reactions := m.reactions ++ [⟨emoji, uid, now⟩] }) := by
  simp only [addReaction, hm]
  split <;> rfl

/-- Evaluation of deleteMessage for self when the message exists. -/
theorem deleteMessage_self_ok (db : DB) (now mid uid : Nat) (m : Message)
    (hm : msgOf db mid = some m) :
    deleteMessage db now mid uid false = Except.ok
      (if m.deletedFor.contains uid then db
       else replaceMsg db mid { m with deletedFor := m.deletedFor ++ [uid] }) := by
  simp only [deleteMessage, hm, Bool.false_eq_true, if_false]
  split <;> rfl

/-- C8 amended: sendMessage authorizes before mutating — a sender who is not
an active participant is rejected with no state change — but toggleReaction,
addReaction, delete-for-self and markAsDelivered mutate the persistent state
for any caller whatsoever: whenever the target message exists the mutation
succeeds with no check that the caller participates in its conversation. -/
theorem mutation_authorization_amended :
    (∀ db now cid s content opts, getConversation? db cid s = none →
      sendMessage db now cid s content opts = Except.error ChatError.notParticipant) ∧
    (∀ db now mid uid emoji m, msgOf db mid = some m →
      ∃ db1 added, toggleReaction db now mid uid emoji = Except.ok (db1, added)) ∧
    (∀ db now mid uid emoji m, msgOf db mid = some m →
      ∃ db1, addReaction db now mid uid emoji = Except.ok db1) ∧
    (∀ db now mid uid m, msgOf db mid = some m →
      ∃ db1, deleteMessage db now mid uid false = Except.ok db1) ∧
    (∀ db now mids uid i m, msgOf db i = some m → i ∈ mids →
      (∀ d ∈ m.deliveredTo, d.userId ≠ uid) →
      msgOf (markAsDelivered db now mids uid) i
        = some { m with deliveredTo := m.deliveredTo ++ [⟨uid, now⟩] }) := by
  refine ⟨?_, ?_, ?_, ?_, ?_⟩
  · intro db now cid s content opts h
    simp [sendMessage, h]
  · intro db now mid uid emoji m hm
    exact ⟨_, _, toggleReaction_ok db now mid uid emoji m hm⟩
  · intro db now mid uid emoji m hm
    exact ⟨_, addReaction_ok db now mid uid emoji m hm⟩
  · intro db now mid uid m hm
    exact ⟨_, deleteMessage_self_ok db now mid uid m hm⟩
  · intro db now mids uid i m hm hmem hnd
    have hmap : msgOf (markAsDelivered db now mids uid) i
        = (msgOf db i).map (fun x =>
            if mids.contains x.id && !(x.deliveredTo.any (fun d => d.userId == uid))
            then { x with deliveredTo := x.deliveredTo ++ [⟨uid, now⟩] }
            else x) := by
      unfold markAsDelivered msgOf
      refine find?_map_pres _ _ _ ?_
      intro a
      show ((if mids.contains a.id && !(a.deliveredTo.any (fun d => d.userId == uid))
          then { a with deliveredTo := a.deliveredTo ++ [⟨uid, now⟩] }
          else a).id == i) = (a.id == i)
      split
      · rfl
      · rfl
    rw [hmap, hm]
    have hc1 : mids.contains m.id = true := by
      apply List.elem_eq_true_of_mem
      have := msgOf_id db i m hm
      rw [beq_iff_eq] at this
      rw [this]
      exact hmem
    have hc2 : (m.deliveredTo.any (fun d => d.userId == uid)) = false := by
      rw [← Bool.not_eq_true]
      intro hany
      rcases List.any_eq_true.mp hany with ⟨d, hd, hpd⟩
      exact absurd (by simpa using hpd) (hnd d hd)
    show some (if mids.contains m.id && !(m.deliveredTo.any (fun d => d.userId == uid))
        then { m with deliveredTo := m.deliveredTo ++ [⟨uid, now⟩] }
        else m) = _
    rw [if_pos (by rw [hc1, hc2]; rfl)]

/-- C8 amended witness: a non-participant send is rejected; a reaction toggle
by the non-participant user 99 succeeds; marking message 5 delivered for
user 99 appends the delivery receipt. -/
theorem mutation_authorization_amended_witness :
    sendMessage dbC8 0 10 99 "hey" {} = Except.error ChatError.notParticipant ∧
    (∃ db1 added, toggleReaction dbC8 3 5 99 "x" = Except.ok (db1, added)) ∧
    msgOf (markAsDelivered dbC8 7 [5] 99) 5
      = some { msgC8 with deliveredTo := msgC8.deliveredTo ++ [⟨99, 7⟩] } := by
  refine ⟨?_, ?_, ?_⟩
  · exact mutation_authorization_amended.1 dbC8 0 10 99 "hey" {} (by decide)
  · exact mutation_authorization_amended.2.1 dbC8 3 5 99 "x" msgC8 (by decide)
  · exact mutation_authorization_amended.2.2.2.2 dbC8 7 [5] 99 5 msgC8
      (by decide) (by decide) (by decide)

/-! ### C9: no broadcast on failure -/

/-- C9: when the delegated engine operation fails, the handler emits no
broadcast to any room and only acknowledges the failure with success = false,
leaving the store untouched; a state-delta broadcast is emitted only once the
delegated operation has succeeded — and for MARK_READ, whose delegate never
raises, the receipt broadcast happens only when some message was affected. -/
theorem handlers_no_broadcast_on_failure :
    (∀ db now uid p e,
      sendMessage db now p.conversationId uid p.content (payloadOptions p)
        = Except.error e →
      handleSendMessage db now uid p = (db, [], ⟨false, some e⟩)) ∧
    (∀ db now uid mid fe, msgOf db mid = none →
      handleDeleteMessage db now uid mid fe
        = (db, [], ⟨false, some ChatError.messageNotFound⟩)) ∧
    (∀ db now uid mid fe m e, msgOf db mid = some m →
      deleteMessage db now mid uid fe = Except.error e →
      handleDeleteMessage db now uid mid fe = (db, [], ⟨false, some e⟩)) ∧
    (∀ db now uid p db1 emits ack,
      handleSendMessage db now uid p = (db1, emits, ack) → emits ≠ [] →
      ack.success = true ∧
      ∃ r, sendMessage db now p.conversationId uid p.content (payloadOptions p)
        = Except.ok r) ∧
    (∀ db now uid mid fe db1 emits ack,
      handleDeleteMessage db now uid mid fe = (db1, emits, ack) → emits ≠ [] →
      ack.success = true ∧ ∃ r, deleteMessage db now mid uid fe = Except.ok r) ∧
    (∀ db now uid cid mid? db1 emits ack,
      handleMarkRead db now uid cid mid? = (db1, emits, ack) →
      ack = ⟨true, none⟩ ∧
      (emits ≠ [] → (markAsRead db now cid uid mid?).2 ≠ [])) := by
  refine ⟨?_, ?_, ?_, ?_, ?_, ?_⟩
  · intro db now uid p e h
    simp [handleSendMessage, h]
  · intro db now uid mid fe h
    simp [handleDeleteMessage, h]
  · intro db now uid mid fe m e hm hd
    simp [handleDeleteMessage, hm, hd]
  · intro db now uid p db1 emits ack hrun hne
    cases hsm : sendMessage db now p.conversationId uid p.content (payloadOptions p) with
    | ok r =>
      rw [show handleSendMessage db now uid p
          = (r.1, [⟨roomName p.conversationId, S2CEvent.messageNew⟩], ⟨true, none⟩)
        from by simp [handleSendMessage, hsm]] at hrun
      injection hrun with h1 hrest
      injection hrest with h2 h3
      subst h3
      exact ⟨rfl, r, rfl⟩
    | error e =>
      rw [show handleSendMessage db now uid p = (db, [], ⟨false, some e⟩)
        from by simp [handleSendMessage, hsm]] at hrun
      injection hrun with h1 hrest
      injection hrest with h2 h3
      exact absurd h2.symm hne
  · intro db now uid mid fe db1 emits ack hrun hne
    cases hm : msgOf db mid with
    | none =>
      rw [show handleDeleteMessage db now uid mid fe
          = (db, [], ⟨false, some ChatError.messageNotFound⟩)
        from by simp [handleDeleteMessage, hm]] at hrun
      injection hrun with h1 hrest
      injection hrest with h2 h3
      exact absurd h2.symm hne
    | some m =>
      cases hd : deleteMessage db now mid uid fe with
      | ok db' =>
        rw [show handleDeleteMessage db now uid mid fe
            = (db', if fe then [⟨roomName m.conversationId, S2CEvent.messageDeleted⟩] else [],
               ⟨true, none⟩)
          from by simp [handleDeleteMessage, hm, hd]] at hrun
        injection hrun with h1 hrest
        injection hrest with h2 h3
        subst h3
        exact ⟨rfl, db', rfl⟩
      | error e =>
        rw [show handleDeleteMessage db now uid mid fe = (db, [], ⟨false, some e⟩)
          from by simp [handleDeleteMessage, hm, hd]] at hrun
        injection hrun with h1 hrest
        injection hrest with h2 h3
        exact absurd h2.symm hne
  · intro db now uid cid mid? db1 emits ack hrun
    simp only [handleMarkRead] at hrun
    injection hrun with h1 hrest
    injection hrest with h2 h3
    subst h3
    refine ⟨rfl, ?_⟩
    intro hne hcontra
    apply hne
    rw [← h2, hcontra]
    simp

/-- C9 witness: user 99 is not a participant, so the SEND_MESSAGE handler
broadcasts nothing and acknowledges the failure with the store untouched. -/
theorem handlers_no_broadcast_on_failure_witness :
    handleSendMessage dbC8 0 99 { conversationId := 10, content := "hey" }
      = (dbC8, [], ⟨false, some ChatError.notParticipant⟩) :=
  handlers_no_broadcast_on_failure.1 dbC8 0 99
    { conversationId := 10, content := "hey" } ChatError.notParticipant rfl
